import Mathlib

/-!
# pnp-scraper-notifier: one inventory check cycle

A shallow embedding of `src/pnp-scraper-notifier.js`.  The asynchronous
functions of the script (`logMessage`, `scrapeWebpage`, `loadRecord`,
`saveRecord`, `sendTelegramMessage`, `main`) become procedures over an explicit
world: the content of the record file and the trace of every I/O operation that
was attempted.  What the outside does (the clock, the log file, the browser, the
file system, `JSON.parse`, `JSON.stringify`, the Telegram API) is an `Env`.
-/

namespace PnpScraper

/-! ## Data model -/

/-- A thrown JavaScript error: its `code` property (set by Node on file-system
errors, missing on a `SyntaxError` or `TypeError`) and its `message`. -/
structure JsError where
  code : Option String
  message : String
deriving DecidableEq, Repr

/-- A value returned by `JSON.parse`.  An object is the list of its own
properties, one pair per key.  The payload of a number is never inspected. -/
inductive Json where
  | null
  | bool (b : Bool)
  | num (n : Int)
  | str (s : String)
  | arr (items : List Json)
  | obj (props : List (String × Json))

/-- The object built for every table row in `scrapeWebpage`: seven string
properties and no other. -/
structure InventoryItem where
  id : String
  make : String
  model : String
  year : String
  color : String
  location : String
  dateAdded : String
deriving DecidableEq, Repr

/-- Reading property `name` of an item object; `none` is `undefined`. -/
def InventoryItem.get (entry : InventoryItem) (name : String) : Option String :=
  if name = "id" then some entry.id
  else if name = "make" then some entry.make
  else if name = "model" then some entry.model
  else if name = "year" then some entry.year
  else if name = "color" then some entry.color
  else if name = "location" then some entry.location
  else if name = "dateAdded" then some entry.dateAdded
  else none

/-- The item as the JSON value that `JSON.stringify` receives. -/
def InventoryItem.toJson (entry : InventoryItem) : Json :=
  Json.obj [("id", Json.str entry.id), ("make", Json.str entry.make),
    ("model", Json.str entry.model), ("year", Json.str entry.year),
    ("color", Json.str entry.color), ("location", Json.str entry.location),
    ("dateAdded", Json.str entry.dateAdded)]

/-- A snapshot (array of items) as a JSON value. -/
def snapshotJson (snapshot : List InventoryItem) : Json :=
  Json.arr (snapshot.map InventoryItem.toJson)

/-- One attempted I/O operation, with whether it succeeded. -/
inductive Effect where
  /-- The call `fs.appendFile(LOG_FILE, logEntry)`. -/
  | log (entry : String) (ok : Bool)
  /-- The calls `puppeteer.launch` and `browser.newPage`. -/
  | launch (ok : Bool)
  /-- The calls `page.goto`, `page.waitForSelector`, `page.evaluate`, `browser.close`. -/
  | browse (ok : Bool)
  /-- The call `fs.readFile(RECORD_FILE, 'utf8')`. -/
  | read (ok : Bool)
  /-- The call `fs.writeFile(RECORD_FILE, content)`. -/
  | write (content : String) (ok : Bool)
  /-- The call `tgBot.sendMessage(TELEGRAM_CHAT_ID, text)`. -/
  | send (text : String) (ok : Bool)
deriving DecidableEq, Repr

/-- The state a cycle acts on: the content of `RECORD_FILE` (`none` when the
file does not exist) and every I/O operation attempted so far, oldest first. -/
structure World where
  record : Option String
  trace : List Effect
deriving DecidableEq, Repr

/-- A failing `fs.writeFile`: the error, and what is left in the record file. -/
structure WriteFault where
  error : JsError
  left : Option String
deriving DecidableEq, Repr

/-- The behaviour of everything outside the script during one cycle. -/
structure Env where
  /-- The constant `RECORD_FILE`, the value of
  `path.join(__dirname, 'inventory_record.json')`. -/
  recordFile : String
  /-- The value of `new Date().toISOString()` at the n-th I/O operation. -/
  now : Nat → String
  /-- The error of the n-th I/O operation when it is a log append that fails. -/
  logFault : Nat → Option JsError
  /-- The failure of `puppeteer.launch` or `browser.newPage`, if any. -/
  launchFault : Option JsError
  /-- The outcome of navigating, waiting for the table and evaluating the rows. -/
  page : Except JsError (List InventoryItem)
  /-- A failure of `fs.readFile` that the file system injects, if any. -/
  readFault : Option JsError
  /-- The function `JSON.parse`: the parsed value, or the message of the `SyntaxError`. -/
  parse : String → Except String Json
  /-- The function `JSON.stringify(value, null, 2)`. -/
  stringify : Json → String
  /-- The failure of `fs.writeFile`, if any. -/
  writeFault : Option WriteFault
  /-- The failure of `tgBot.sendMessage`, if any. -/
  sendFault : Option JsError

/-! ## Procedures: state passing with exceptions -/

/-- An asynchronous function: from a world to its outcome (a value, or the
error it throws) and the world it leaves. -/
def Proc (α : Type) : Type := World → Except JsError α × World

/-- Sequencing (`await`): a thrown error skips the continuation. -/
def Proc.bind {α β : Type} (x : Proc α) (f : α → Proc β) : Proc β := fun w =>
  match x w with
  | (Except.ok a, w1) => f a w1
  | (Except.error e, w1) => (Except.error e, w1)

/-- Returning a value without any effect. -/
def Proc.pure {α : Type} (a : α) : Proc α := fun w => (Except.ok a, w)

/-- The statement `throw error`. -/
def Proc.throw {α : Type} (e : JsError) : Proc α := fun w => (Except.error e, w)

/-- The statement `try { body } catch (error) { handler }`. -/
def Proc.tryCatch {α : Type} (body : Proc α) (handler : JsError → Proc α) : Proc α := fun w =>
  match body w with
  | (Except.ok a, w1) => (Except.ok a, w1)
  | (Except.error e, w1) => handler e w1

instance : Monad Proc where
  pure := Proc.pure
  bind := Proc.bind

instance : MonadExcept JsError Proc where
  throw := Proc.throw
  tryCatch := Proc.tryCatch

/-- A pure computation that may throw, run inside a procedure. -/
def liftExcept {α : Type} (r : Except JsError α) : Proc α := fun w => (r, w)

/-- Recording one attempted operation. -/
def World.emit (w : World) (e : Effect) : World := { w with trace := w.trace ++ [e] }

/-! ## The script -/

/-- Function `logMessage` (lines 18-23): one timestamped line appended to the log file. -/
def logMessage (env : Env) (message : String) : Proc Unit := fun w =>
  let timestamp := env.now w.trace.length
  let logEntry := timestamp ++ " - " ++ message ++ "\n"
  match env.logFault w.trace.length with
  | none => (Except.ok (), w.emit (Effect.log logEntry true))
  | some e => (Except.error e, w.emit (Effect.log logEntry false))

/-- The calls `puppeteer.launch` and `browser.newPage` (lines 43-48). -/
def launchBrowser (env : Env) : Proc Unit := fun w =>
  match env.launchFault with
  | none => (Except.ok (), w.emit (Effect.launch true))
  | some e => (Except.error e, w.emit (Effect.launch false))

/-- The calls from `page.goto` to `browser.close` (lines 51-71). -/
def evaluatePage (env : Env) : Proc (List InventoryItem) := fun w =>
  match env.page with
  | Except.ok results => (Except.ok results, w.emit (Effect.browse true))
  | Except.error e => (Except.error e, w.emit (Effect.browse false))

/-- Function `scrapeWebpage` (lines 40-79). -/
def scrapeWebpage (env : Env) : Proc (List InventoryItem) :=
  try
    logMessage env "Launching Puppeteer."
    launchBrowser env
    logMessage env "Navigating to URL, waiting for table data to load..."
    let results ← evaluatePage env
    logMessage env "Successfully scraped data from the webpage."
    pure results
  catch error =>
    logMessage env ("Error scraping webpage: " ++ error.message)
    throw error

/-- The call `fs.readFile(RECORD_FILE, 'utf8')`. -/
def readFile (env : Env) : Proc String := fun w =>
  match env.readFault with
  | some e => (Except.error e, w.emit (Effect.read false))
  | none =>
    match w.record with
    | none =>
      (Except.error ⟨some "ENOENT",
          "ENOENT: no such file or directory, open '" ++ env.recordFile ++ "'"⟩,
        w.emit (Effect.read false))
    | some data => (Except.ok data, w.emit (Effect.read true))

/-- The call `JSON.parse(data)`: a `SyntaxError` has no `code`. -/
def jsonParse (env : Env) (data : String) : Proc Json :=
  match env.parse data with
  | Except.ok value => pure value
  | Except.error msg => throw ⟨none, msg⟩

/-- Function `loadRecord` (lines 85-98). -/
def loadRecord (env : Env) : Proc Json :=
  try
    logMessage env "Loading previous inventory record."
    let data ← readFile env
    jsonParse env data
  catch error =>
    if error.code = some "ENOENT" then
      logMessage env "No previous record found. Creating a new one."
      pure (Json.arr [])
    else
      logMessage env ("Error loading inventory record: " ++ error.message)
      throw error

/-- The call `fs.writeFile(RECORD_FILE, content)`. -/
def writeFile (env : Env) (content : String) : Proc Unit := fun w =>
  match env.writeFault with
  | none => (Except.ok (), { (w.emit (Effect.write content true)) with record := some content })
  | some f => (Except.error f.error, { (w.emit (Effect.write content false)) with record := f.left })

/-- Function `saveRecord` (lines 104-113). -/
def saveRecord (env : Env) (record : List InventoryItem) : Proc Unit :=
  try
    logMessage env "Saving new inventory record."
    writeFile env (env.stringify (snapshotJson record))
    logMessage env "Inventory record saved successfully."
  catch error =>
    logMessage env ("Error saving inventory record: " ++ error.message)
    throw error

/-- The call `tgBot.sendMessage(TELEGRAM_CHAT_ID, message)`. -/
def sendMessage (env : Env) (message : String) : Proc Unit := fun w =>
  match env.sendFault with
  | none => (Except.ok (), w.emit (Effect.send message true))
  | some e => (Except.error e, w.emit (Effect.send message false))

/-- Function `sendTelegramMessage` (lines 119-128). -/
def sendTelegramMessage (env : Env) (message : String) : Proc Unit :=
  try
    logMessage env "Sending Telegram notification."
    sendMessage env message
    logMessage env "Telegram message sent successfully."
  catch error =>
    logMessage env ("Error sending Telegram message: " ++ error.message)
    throw error

/-- A `TypeError`. -/
def typeError (message : String) : JsError := ⟨none, message⟩

/-- The expression `previousEntry.id` on a parsed value: reading a property of
`null` throws, an object gives its own property, every other value has none. -/
def Json.id : Json → Except JsError (Option Json)
  | Json.null => Except.error (typeError "Cannot read properties of null (reading 'id')")
  | Json.obj props => Except.ok (props.lookup "id")
  | _ => Except.ok none

/-- The comparison `value === s` for a string `s`. -/
def strictEq (value : Option Json) (s : String) : Bool :=
  match value with
  | some (Json.str t) => t == s
  | _ => false

/-- The method `Array.prototype.some` with the callback
`previousEntry => previousEntry.id === newEntry.id`: stops at the first match. -/
def someMatches (newEntry : InventoryItem) : List Json → Except JsError Bool
  | [] => Except.ok false
  | previousEntry :: rest =>
    match previousEntry.id with
    | Except.error e => Except.error e
    | Except.ok value =>
      if strictEq value newEntry.id then Except.ok true else someMatches newEntry rest

/-- The expression `previousInventory.some(...)`: only an array has the method. -/
def previousSome (previousInventory : Json) (newEntry : InventoryItem) : Except JsError Bool :=
  match previousInventory with
  | Json.arr entries => someMatches newEntry entries
  | Json.null => Except.error (typeError "Cannot read properties of null (reading 'some')")
  | _ => Except.error (typeError "previousInventory.some is not a function")

/-- The expression `currentInventory.filter(newEntry => !previousInventory.some(...))`
(lines 142-144): the callback runs once per item, in order. -/
def filterNew (previousInventory : Json) : List InventoryItem → Except JsError (List InventoryItem)
  | [] => Except.ok []
  | newEntry :: rest =>
    match previousSome previousInventory newEntry with
    | Except.error e => Except.error e
    | Except.ok found =>
      match filterNew previousInventory rest with
      | Except.error e => Except.error e
      | Except.ok kept => Except.ok (if !found then newEntry :: kept else kept)

/-- A value interpolated in a template literal. -/
def render : Option String → String
  | some s => s
  | none => "undefined"

/-- The template of one item (line 153), with the characters of the source file. -/
def entryLine (entry : InventoryItem) : String :=
  "ðŸš™ Date Added: " ++ render (entry.get "dateAdded") ++
    ", Year: " ++ render (entry.get "year") ++
    ", Colour: " ++ render (entry.get "color") ++
    ", Row: " ++ render (entry.get "row")

/-- The summary that opens the message (line 152), without its line break. -/
def summaryLine (count : Nat) : String :=
  "ðŸ¤© Found " ++ toString count ++ " new Hyundai Accents:"

/-- The notification text (lines 152-153). -/
def buildMessage (newEntries : List InventoryItem) : String :=
  (summaryLine newEntries.length ++ "\n") ++ "\n".intercalate (newEntries.map entryLine)

/-- Function `main` (lines 133-165).  Its outcome is `error` exactly when the
promise it returns is rejected. -/
def main (env : Env) : Proc Unit :=
  try
    logMessage env "Starting inventory check."
    let currentInventory ← scrapeWebpage env
    let previousInventory ← loadRecord env
    let newEntries ← liftExcept (filterNew previousInventory currentInventory)
    if newEntries.length > 0 then
      logMessage env ("Found " ++ toString newEntries.length ++ " new entries. Updating record.")
      saveRecord env currentInventory
      let message := buildMessage newEntries
      sendTelegramMessage env message
    else
      logMessage env "No new entries found."
    logMessage env "Inventory check completed."
  catch error =>
    logMessage env ("An error occurred during the inventory check: " ++ error.message)

/-! ## Observations on a cycle -/

/-- The operations on the Snapshot Store and the Notifier: reads and writes of
the record file and message sends. -/
def Effect.isStore : Effect → Bool
  | Effect.read _ => true
  | Effect.write _ _ => true
  | Effect.send _ _ => true
  | _ => false

/-- A write of the record file, successful or not. -/
def Effect.isWrite : Effect → Bool
  | Effect.write _ _ => true
  | _ => false

/-- An attempted message send, successful or not. -/
def Effect.isSend : Effect → Bool
  | Effect.send _ _ => true
  | _ => false

/-- The store and notifier operations of a trace, in order. -/
def storeOps (ops : List Effect) : List Effect := ops.filter Effect.isStore

/-- The operations that one call of `main` from `w` adds to the trace. -/
def cycleOps (env : Env) (w : World) : List Effect :=
  (main env w).2.trace.drop w.trace.length

/-- The log sink accepts every line. -/
def LogOk (env : Env) : Prop := ∀ n, env.logFault n = none

/-- The log sink rejects some line. -/
def LogFails (env : Env) : Prop := ∃ n e, env.logFault n = some e

/-- From `w` to `w1` the trace grew by operations whose store operations are `L`. -/
def Adds (w w1 : World) (L : List Effect) : Prop :=
  ∃ ops, w1.trace = w.trace ++ ops ∧ storeOps ops = L

/-- The value `loadRecord` hands back when it returns: what the read and the
parse give, an absent file counting as the empty array. -/
def loaded (env : Env) (record : Option String) : Except JsError Json :=
  match env.readFault with
  | some e => if e.code = some "ENOENT" then Except.ok (Json.arr []) else Except.error e
  | none =>
    match record with
    | none => Except.ok (Json.arr [])
    | some data =>
      match env.parse data with
      | Except.ok value => Except.ok value
      | Except.error msg => Except.error ⟨none, msg⟩

/-- The snapshot difference in the words of the specification: the items of
`current` whose id is the id of no item of `previous`. -/
def diffSpec (current previous : List InventoryItem) : List InventoryItem :=
  current.filter (fun item => decide (∀ p ∈ previous, p.id ≠ item.id))

/-! ## Sample data -/

/-- A listed vehicle. -/
def accentBlue : InventoryItem :=
  ⟨"1", "Hyundai", "Accent", "2009", "Blue", "12", "2024-05-01"⟩

/-- A second listed vehicle. -/
def accentRed : InventoryItem :=
  ⟨"2", "Hyundai", "Accent", "2012", "Red", "7", "2024-05-03"⟩

/-- A listed vehicle whose colour cell holds two lines of text: `textContent.trim()`
keeps a line break inside the text. -/
def accentTwoTone : InventoryItem :=
  ⟨"3", "Hyundai", "Accent", "2012", "Red\nMetallic", "7", "2024-05-03"⟩

/-- A serialiser that is enough for the sample snapshots: each is written as a
short tag. -/
def sampleStringify : Json → String
  | Json.arr [] => "[]"
  | Json.arr [_] => "one"
  | _ => "two"

/-- The parser that reads the tags of `sampleStringify` back; any other text
is rejected. -/
def sampleParse (data : String) : Except String Json :=
  if data = "[]" then Except.ok (Json.arr [])
  else if data = "one" then Except.ok (snapshotJson [accentBlue])
  else if data = "two" then Except.ok (snapshotJson [accentBlue, accentRed])
  else if data = "object" then Except.ok (Json.obj [("id", Json.str "1")])
  else Except.error "Unexpected token in JSON"

/-- Collaborators that all work; the source lists both vehicles. -/
def quietEnv : Env where
  recordFile := "/srv/bot/inventory_record.json"
  now := fun _ => "2024-05-04T06:00:00.000Z"
  logFault := fun _ => none
  launchFault := none
  page := Except.ok [accentBlue, accentRed]
  readFault := none
  parse := sampleParse
  stringify := sampleStringify
  writeFault := none
  sendFault := none

/-- As `quietEnv`, with a source that times out. -/
def envFetchFails : Env :=
  { quietEnv with page := Except.error ⟨none, "Waiting for selector table failed: 10000ms exceeded"⟩ }

/-- As `quietEnv`, with a record file that cannot be written. -/
def envWriteFails : Env :=
  { quietEnv with writeFault := some ⟨⟨some "ENOSPC", "ENOSPC: no space left on device, write"⟩, some ""⟩ }

/-- As `quietEnv`, with a Telegram API that rejects the message. -/
def envSendFails : Env :=
  { quietEnv with sendFault := some ⟨some "ETELEGRAM", "ETELEGRAM: 401 Unauthorized"⟩ }

/-- As `quietEnv`, with a record file that cannot be read. -/
def envReadFails : Env :=
  { quietEnv with readFault := some ⟨some "EACCES", "EACCES: permission denied, open"⟩ }

/-- As `quietEnv`, with a source that lists only the first vehicle. -/
def envOneListed : Env :=
  { quietEnv with page := Except.ok [accentBlue] }

/-- As `quietEnv`, with a source that lists nothing. -/
def envNoneListed : Env :=
  { quietEnv with page := Except.ok [] }

/-- As `quietEnv`, with a log file that cannot be appended to. -/
def envLogFails : Env :=
  { quietEnv with logFault := fun _ => some ⟨some "EACCES", "EACCES: permission denied, open"⟩ }

/-- A first run: no record file, nothing done yet. -/
def firstRun : World := ⟨none, []⟩

/-- A run after the first vehicle was recorded. -/
def secondRun : World := ⟨some "one", []⟩

/-- A run after both vehicles were recorded. -/
def thirdRun : World := ⟨some "two", []⟩

/-- A run with a record file that holds a single object instead of an array. -/
def objectRun : World := ⟨some "object", []⟩

/-- A run with a record file that is not JSON. -/
def corruptRun : World := ⟨some "<html>", []⟩

/-- The last operation recorded in `w1` is a successful append of the log line
with text `message`. -/
def LastLogged (env : Env) (w1 : World) (message : String) : Prop :=
  ∃ n, w1.trace.getLast? = some (Effect.log (env.now n ++ " - " ++ message ++ "\n") true)

/-- The text of the last log line of a cycle that starts with record `record`,
when the log sink works: the report of the first step that fails, or the line
that closes the cycle. -/
def closingLine (env : Env) (record : Option String) : String :=
  match env.launchFault with
  | some e => "An error occurred during the inventory check: " ++ e.message
  | none =>
    match env.page with
    | Except.error e => "An error occurred during the inventory check: " ++ e.message
    | Except.ok current =>
      match loaded env record with
      | Except.error e => "An error occurred during the inventory check: " ++ e.message
      | Except.ok previous =>
        match filterNew previous current with
        | Except.error e => "An error occurred during the inventory check: " ++ e.message
        | Except.ok newEntries =>
          if newEntries.length > 0 then
            match env.writeFault with
            | some f => "An error occurred during the inventory check: " ++ f.error.message
            | none =>
              match env.sendFault with
              | some e => "An error occurred during the inventory check: " ++ e.message
              | none => "Inventory check completed."
          else "Inventory check completed."

/-- The lines of a text: the pieces between its line breaks, in order. -/
def textLines (text : String) : List String :=
  (text.data.splitOn '\n').map String.mk

/-- The outcome and final world of running `m` from `w` satisfy `Q`. -/
def wp {α : Type} (m : Proc α) (Q : Except JsError α → World → Prop) (w : World) : Prop :=
  Q (m w).1 (m w).2

/-- What the continuation of an `await` must establish. -/
def afterBind {α β : Type} (f : α → Proc β) (Q : Except JsError β → World → Prop) :
    Except JsError α → World → Prop
  | Except.ok a, w => wp (f a) Q w
  | Except.error e, w => Q (Except.error e) w

/-- What the handler of a `try` must establish. -/
def afterTry {α : Type} (h : JsError → Proc α) (Q : Except JsError α → World → Prop) :
    Except JsError α → World → Prop
  | Except.ok a, w => Q (Except.ok a) w
  | Except.error e, w => wp (h e) Q w

/-- How far a cycle got, seen from the store and the notifier, and why it
stopped there.  The three last cases carry the snapshot that was fetched, the
value that `loadRecord` returned and the new entries that were found; `b` is
the outcome of the read of the record file, when the read was reached. -/
inductive CycleOutcome (env : Env) (w w1 : World) : Prop where
  | untouched (hadd : Adds w w1 []) (hrec : w1.record = w.record)
      (hwhy : LogFails env ∨ env.launchFault ≠ none ∨ ∃ e, env.page = Except.error e)
  | readOnly (b : Bool) (hlaunch : env.launchFault = none) (current : List InventoryItem)
      (hpage : env.page = Except.ok current)
      (hadd : Adds w w1 [Effect.read b]) (hrec : w1.record = w.record)
      (hwhy : LogFails env ∨ (∃ e, loaded env w.record = Except.error e) ∨
        ∃ previous, loaded env w.record = Except.ok previous ∧
          (filterNew previous current = Except.ok [] ∨
            ∃ e, filterNew previous current = Except.error e))
  | writeFailed (b : Option Bool) (current newEntries : List InventoryItem) (previous : Json)
      (f : WriteFault)
      (hlaunch : env.launchFault = none) (hpage : env.page = Except.ok current)
      (hload : LogFails env ∨ (loaded env w.record = Except.ok previous ∧ b.isSome))
      (hnew : filterNew previous current = Except.ok newEntries) (hne : newEntries ≠ [])
      (hfault : env.writeFault = some f)
      (hadd : Adds w w1 (b.toList.map Effect.read ++
        [Effect.write (env.stringify (snapshotJson current)) false]))
      (hrec : w1.record = f.left)
  | saved (b : Option Bool) (current newEntries : List InventoryItem) (previous : Json)
      (hlaunch : env.launchFault = none) (hpage : env.page = Except.ok current)
      (hload : LogFails env)
      (hnew : filterNew previous current = Except.ok newEntries) (hne : newEntries ≠ [])
      (hfault : env.writeFault = none)
      (hadd : Adds w w1 (b.toList.map Effect.read ++
        [Effect.write (env.stringify (snapshotJson current)) true]))
      (hrec : w1.record = some (env.stringify (snapshotJson current)))
  | notified (b : Option Bool) (current newEntries : List InventoryItem) (previous : Json)
      (hlaunch : env.launchFault = none) (hpage : env.page = Except.ok current)
      (hload : LogFails env ∨ (loaded env w.record = Except.ok previous ∧ b.isSome))
      (hnew : filterNew previous current = Except.ok newEntries) (hne : newEntries ≠ [])
      (hfault : env.writeFault = none)
      (hadd : Adds w w1 (b.toList.map Effect.read ++
        [Effect.write (env.stringify (snapshotJson current)) true,
          Effect.send (buildMessage newEntries) env.sendFault.isNone]))
      (hrec : w1.record = some (env.stringify (snapshotJson current)))

/-! ## Rules for procedures -/

theorem wp_bind {α β : Type} (x : Proc α) (f : α → Proc β) (Q : Except JsError β → World → Prop)
    (w : World) : wp (x >>= f) Q w ↔ wp x (afterBind f Q) w := by
  show Q (Proc.bind x f w).1 (Proc.bind x f w).2 ↔ afterBind f Q (x w).1 (x w).2
  unfold Proc.bind
  rcases x w with ⟨r, w1⟩
  cases r <;> rfl

theorem wp_tryCatch {α : Type} (b : Proc α) (h : JsError → Proc α)
    (Q : Except JsError α → World → Prop) (w : World) :
    wp (tryCatch b h) Q w ↔ wp b (afterTry h Q) w := by
  show Q (Proc.tryCatch b h w).1 (Proc.tryCatch b h w).2 ↔ afterTry h Q (b w).1 (b w).2
  unfold Proc.tryCatch
  rcases b w with ⟨r, w1⟩
  cases r <;> rfl

theorem wp_pure {α : Type} (a : α) (Q : Except JsError α → World → Prop) (w : World) :
    wp (pure a) Q w ↔ Q (Except.ok a) w := Iff.rfl

theorem wp_throw {α : Type} (e : JsError) (Q : Except JsError α → World → Prop) (w : World) :
    wp (throw e) Q w ↔ Q (Except.error e) w := Iff.rfl

theorem wp_liftExcept {α : Type} (r : Except JsError α) (Q : Except JsError α → World → Prop)
    (w : World) : wp (liftExcept r) Q w ↔ Q r w := Iff.rfl

theorem wp_ite {α : Type} (c : Prop) [Decidable c] (x y : Proc α)
    (Q : Except JsError α → World → Prop) (w : World) :
    wp (if c then x else y) Q w ↔ (c → wp x Q w) ∧ (¬ c → wp y Q w) := by
  by_cases h : c <;> simp [h]

theorem wp_mono {α : Type} {m : Proc α} {Q R : Except JsError α → World → Prop} {w : World}
    (h : wp m Q w) (hQR : ∀ r w1, Q r w1 → R r w1) : wp m R w := hQR _ _ h

theorem wp_logMessage (env : Env) (msg : String) (Q : Except JsError Unit → World → Prop)
    (w : World) :
    wp (logMessage env msg) Q w ↔
      (env.logFault w.trace.length = none →
        Q (Except.ok ())
          (w.emit (Effect.log (env.now w.trace.length ++ " - " ++ msg ++ "\n") true))) ∧
      (∀ e, env.logFault w.trace.length = some e →
        Q (Except.error e)
          (w.emit (Effect.log (env.now w.trace.length ++ " - " ++ msg ++ "\n") false))) := by
  unfold wp logMessage
  cases h : env.logFault w.trace.length <;> simp

theorem wp_launchBrowser (env : Env) (Q : Except JsError Unit → World → Prop) (w : World) :
    wp (launchBrowser env) Q w ↔
      (env.launchFault = none → Q (Except.ok ()) (w.emit (Effect.launch true))) ∧
      (∀ e, env.launchFault = some e → Q (Except.error e) (w.emit (Effect.launch false))) := by
  unfold wp launchBrowser
  cases h : env.launchFault <;> simp

theorem wp_evaluatePage (env : Env) (Q : Except JsError (List InventoryItem) → World → Prop)
    (w : World) :
    wp (evaluatePage env) Q w ↔
      (∀ results, env.page = Except.ok results →
        Q (Except.ok results) (w.emit (Effect.browse true))) ∧
      (∀ e, env.page = Except.error e → Q (Except.error e) (w.emit (Effect.browse false))) := by
  unfold wp evaluatePage
  cases h : env.page <;> simp

theorem wp_readFile (env : Env) (Q : Except JsError String → World → Prop) (w : World) :
    wp (readFile env) Q w ↔
      (∀ e, env.readFault = some e → Q (Except.error e) (w.emit (Effect.read false))) ∧
      (env.readFault = none → w.record = none →
        Q (Except.error ⟨some "ENOENT",
            "ENOENT: no such file or directory, open '" ++ env.recordFile ++ "'"⟩)
          (w.emit (Effect.read false))) ∧
      (∀ data, env.readFault = none → w.record = some data →
        Q (Except.ok data) (w.emit (Effect.read true))) := by
  unfold wp readFile
  cases h : env.readFault <;> cases h2 : w.record <;> simp

theorem wp_jsonParse (env : Env) (data : String) (Q : Except JsError Json → World → Prop)
    (w : World) :
    wp (jsonParse env data) Q w ↔
      (∀ value, env.parse data = Except.ok value → Q (Except.ok value) w) ∧
      (∀ msg, env.parse data = Except.error msg → Q (Except.error ⟨none, msg⟩) w) := by
  unfold wp jsonParse
  cases h : env.parse data <;> simp <;> rfl

theorem wp_writeFile (env : Env) (content : String) (Q : Except JsError Unit → World → Prop)
    (w : World) :
    wp (writeFile env content) Q w ↔
      (env.writeFault = none →
        Q (Except.ok ()) ⟨some content, w.trace ++ [Effect.write content true]⟩) ∧
      (∀ f, env.writeFault = some f →
        Q (Except.error f.error) ⟨f.left, w.trace ++ [Effect.write content false]⟩) := by
  unfold wp writeFile
  cases h : env.writeFault <;> simp [World.emit]

theorem wp_sendMessage (env : Env) (message : String) (Q : Except JsError Unit → World → Prop)
    (w : World) :
    wp (sendMessage env message) Q w ↔
      (env.sendFault = none → Q (Except.ok ()) (w.emit (Effect.send message true))) ∧
      (∀ e, env.sendFault = some e → Q (Except.error e) (w.emit (Effect.send message false))) := by
  unfold wp sendMessage
  cases h : env.sendFault <;> simp

@[simp] theorem emit_trace (w : World) (e : Effect) : (w.emit e).trace = w.trace ++ [e] := rfl

@[simp] theorem emit_record (w : World) (e : Effect) : (w.emit e).record = w.record := rfl

theorem Adds.refl (w : World) : Adds w w [] := ⟨[], by simp, rfl⟩

theorem Adds.trans {w w1 w2 : World} {L1 L2 : List Effect} (h1 : Adds w w1 L1)
    (h2 : Adds w1 w2 L2) : Adds w w2 (L1 ++ L2) := by
  obtain ⟨o1, ht1, hs1⟩ := h1
  obtain ⟨o2, ht2, hs2⟩ := h2
  refine ⟨o1 ++ o2, ?_, ?_⟩
  · rw [ht2, ht1, List.append_assoc]
  · simp [storeOps] at *
    rw [hs1, hs2]

theorem adds_mk (w : World) (r : Option String) (ops L : List Effect) :
    Adds w ⟨r, w.trace ++ ops⟩ L ↔ storeOps ops = L := by
  constructor
  · rintro ⟨o, ht, hs⟩
    have : ops = o := List.append_cancel_left ht
    rw [this]; exact hs
  · intro h
    exact ⟨ops, rfl, h⟩

/-! ## What each function does to the store, whatever the log sink does -/

theorem logMessage_spec (env : Env) (msg : String) (w : World) :
    wp (logMessage env msg)
      (fun r w1 => Adds w w1 [] ∧ w1.record = w.record ∧
        ∀ e, r = Except.error e → LogFails env) w := by
  simp only [wp_logMessage, World.emit, adds_mk]
  repeat' (first | intro _ | apply And.intro)
  all_goals first | rfl | trivial | exact ⟨_, _, by assumption⟩

theorem scrapeWebpage_spec (env : Env) (w : World) :
    wp (scrapeWebpage env)
      (fun r w1 => Adds w w1 [] ∧ w1.record = w.record ∧
        (∀ c, r = Except.ok c → env.launchFault = none ∧ env.page = Except.ok c) ∧
        (∀ e, r = Except.error e →
          LogFails env ∨ env.launchFault ≠ none ∨ ∃ e1, env.page = Except.error e1)) w := by
  simp only [scrapeWebpage, wp_bind, wp_tryCatch, wp_pure, wp_throw, wp_logMessage,
    wp_launchBrowser, wp_evaluatePage, afterBind, afterTry, World.emit, List.append_assoc,
    List.singleton_append, List.cons_append, adds_mk]
  repeat' (first | intro _ | apply And.intro)
  all_goals first
    | rfl
    | (have hLF : LogFails env := ⟨_, _, by assumption⟩
       simp_all)
    | simp_all

theorem loadRecord_spec (env : Env) (w : World) :
    wp (loadRecord env)
      (fun r w1 => w1.record = w.record ∧
        ((Adds w w1 [] ∧ LogFails env) ∨ ∃ b, Adds w w1 [Effect.read b]) ∧
        (∀ p, r = Except.ok p → LogFails env ∨ loaded env w.record = Except.ok p) ∧
        (∀ e, r = Except.error e →
          LogFails env ∨ ∃ e1, loaded env w.record = Except.error e1)) w := by
  simp only [loadRecord, wp_bind, wp_tryCatch, wp_pure, wp_throw, wp_logMessage, wp_readFile,
    wp_jsonParse, wp_ite, afterBind, afterTry, World.emit, List.append_assoc,
    List.singleton_append, List.cons_append, adds_mk]
  repeat' (first | intro _ | apply And.intro)
  all_goals first
    | rfl
    | trivial
    | (have hLF : LogFails env := ⟨_, _, by assumption⟩
       simp_all [storeOps, Effect.isStore])
    | simp_all [storeOps, Effect.isStore, loaded]

theorem saveRecord_spec (env : Env) (record : List InventoryItem) (w : World) :
    wp (saveRecord env record)
      (fun r w1 =>
        (Adds w w1 [] ∧ w1.record = w.record ∧ LogFails env ∧ ∃ e, r = Except.error e) ∨
        (∃ f, env.writeFault = some f ∧
          Adds w w1 [Effect.write (env.stringify (snapshotJson record)) false] ∧
          w1.record = f.left ∧ ∃ e, r = Except.error e) ∨
        (env.writeFault = none ∧
          Adds w w1 [Effect.write (env.stringify (snapshotJson record)) true] ∧
          w1.record = some (env.stringify (snapshotJson record)) ∧
          ∀ e, r = Except.error e → LogFails env)) w := by
  simp only [saveRecord, wp_bind, wp_tryCatch, wp_pure, wp_throw, wp_logMessage, wp_writeFile,
    afterBind, afterTry, World.emit, List.append_assoc,
    List.singleton_append, List.cons_append, adds_mk]
  repeat' (first | intro _ | apply And.intro)
  all_goals first
    | (have hLF : LogFails env := ⟨_, _, by assumption⟩
       simp_all [storeOps, Effect.isStore])
    | simp_all [storeOps, Effect.isStore]

theorem sendTelegramMessage_spec (env : Env) (message : String) (w : World) :
    wp (sendTelegramMessage env message)
      (fun _ w1 => w1.record = w.record ∧
        ((Adds w w1 [] ∧ LogFails env) ∨
          Adds w w1 [Effect.send message env.sendFault.isNone])) w := by
  simp only [sendTelegramMessage, wp_bind, wp_tryCatch, wp_pure, wp_throw, wp_logMessage,
    wp_sendMessage, afterBind, afterTry, World.emit, List.append_assoc,
    List.singleton_append, List.cons_append, adds_mk]
  repeat' (first | intro _ | apply And.intro)
  all_goals first
    | rfl
    | trivial
    | (have hLF : LogFails env := ⟨_, _, by assumption⟩
       simp_all [storeOps, Effect.isStore])
    | simp_all [storeOps, Effect.isStore]

/-! ## The outcome of a cycle -/

theorem CycleOutcome.step {env : Env} {w w1 w2 : World} (h : CycleOutcome env w w1)
    (ha : Adds w1 w2 []) (hr : w2.record = w1.record) : CycleOutcome env w w2 := by
  cases h with
  | untouched hadd hrec hwhy =>
    exact CycleOutcome.untouched (hadd.trans ha) (hr.trans hrec) hwhy
  | readOnly b hl c hp hadd hrec hwhy =>
    exact CycleOutcome.readOnly b hl c hp (by simpa using hadd.trans ha) (hr.trans hrec) hwhy
  | writeFailed b c ne p f hl hp hload hnew hne hf hadd hrec =>
    exact CycleOutcome.writeFailed b c ne p f hl hp hload hnew hne hf
      (by simpa using hadd.trans ha) (hr.trans hrec)
  | saved b c ne p hl hp hload hnew hne hf hadd hrec =>
    exact CycleOutcome.saved b c ne p hl hp hload hnew hne hf
      (by simpa using hadd.trans ha) (hr.trans hrec)
  | notified b c ne p hl hp hload hnew hne hf hadd hrec =>
    exact CycleOutcome.notified b c ne p hl hp hload hnew hne hf
      (by simpa using hadd.trans ha) (hr.trans hrec)

/-- A log line leaves the outcome of the cycle as it is. -/
theorem CycleOutcome.log {env : Env} {w w1 : World} (h : CycleOutcome env w w1) (msg : String) :
    wp (logMessage env msg) (fun _ w2 => CycleOutcome env w w2) w1 :=
  wp_mono (logMessage_spec env msg w1) (fun _ _ hq => h.step hq.1 hq.2.1)

/-- A log line inside the `try` of `main`, followed by the end of the cycle or by
the log line of the `catch`, leaves the outcome as it is. -/
theorem CycleOutcome.log_try {env : Env} {w w1 : World} (h : CycleOutcome env w w1)
    (msg : String) (report : JsError → String) :
    wp (logMessage env msg)
      (afterTry (fun error => logMessage env (report error))
        (fun _ w2 => CycleOutcome env w w2)) w1 := by
  refine wp_mono (logMessage_spec env msg w1) ?_
  rintro (e | _) w2 ⟨ha, hr, _⟩
  · simp only [afterTry]
    exact (h.step ha hr).log _
  · simp only [afterTry]
    exact h.step ha hr

/-- Every cycle ends in one of the five outcomes, whatever the collaborators and
the log sink do. -/
theorem main_outcome (env : Env) (w : World) :
    wp (main env) (fun _ w1 => CycleOutcome env w w1) w := by
  simp only [main, wp_tryCatch, wp_bind]
  refine wp_mono (logMessage_spec env _ w) ?_
  rintro (e | _) w1 ⟨ha1, hr1, hlf1⟩
  · simp only [afterBind, afterTry]
    exact (CycleOutcome.untouched ha1 hr1 (Or.inl (hlf1 e rfl))).log _
  simp only [afterBind, wp_bind]
  refine wp_mono (scrapeWebpage_spec env w1) ?_
  rintro (e | c) w2 ⟨ha2, hr2, hc, hce⟩
  · simp only [afterBind, afterTry]
    exact (CycleOutcome.untouched (ha1.trans ha2) (hr2.trans hr1) (hce e rfl)).log _
  obtain ⟨hl, hp⟩ := hc c rfl
  simp only [afterBind, wp_bind]
  refine wp_mono (loadRecord_spec env w2) ?_
  rintro r w3 ⟨hr3, ha3, hok3, herr3⟩
  have hrec2 : w2.record = w.record := hr2.trans hr1
  have hrec3 : w3.record = w.record := hr3.trans hrec2
  rw [hrec2] at hok3 herr3
  obtain ⟨b, hb, hbs⟩ : ∃ b : Option Bool, Adds w w3 (b.toList.map Effect.read) ∧
      (LogFails env ∨ b.isSome) := by
    rcases ha3 with ⟨ha3, hlf⟩ | ⟨b, ha3⟩
    · exact ⟨none, (ha1.trans ha2).trans ha3, Or.inl hlf⟩
    · exact ⟨some b, (ha1.trans ha2).trans ha3, Or.inr rfl⟩
  -- the outcome when the cycle stops here for the reason `hwhy`
  have O3 : (LogFails env ∨ (∃ e, loaded env w.record = Except.error e) ∨
      ∃ previous, loaded env w.record = Except.ok previous ∧
        (filterNew previous c = Except.ok [] ∨ ∃ e, filterNew previous c = Except.error e)) →
      CycleOutcome env w w3 := by
    intro hwhy
    cases b with
    | none =>
      rcases hbs with hlf | h
      · exact CycleOutcome.untouched hb hrec3 (Or.inl hlf)
      · exact absurd h (by simp)
    | some b => exact CycleOutcome.readOnly b hl c hp hb hrec3 hwhy
  rcases r with e | p
  · simp only [afterBind, afterTry]
    refine (O3 ?_).log _
    rcases herr3 e rfl with h | h
    · exact Or.inl h
    · exact Or.inr (Or.inl h)
  have hp3 : LogFails env ∨ (loaded env w.record = Except.ok p ∧ b.isSome) := by
    rcases hok3 p rfl with h | h
    · exact Or.inl h
    · rcases hbs with h2 | h2
      · exact Or.inl h2
      · exact Or.inr ⟨h, h2⟩
  simp only [afterBind, wp_bind, wp_liftExcept]
  cases hnew : filterNew p c with
  | error e =>
    simp only [afterBind, afterTry]
    refine (O3 ?_).log _
    rcases hp3 with h | ⟨h, _⟩
    · exact Or.inl h
    · exact Or.inr (Or.inr ⟨p, h, Or.inr ⟨e, hnew⟩⟩)
  | ok ne =>
    simp only [afterBind, wp_bind, wp_ite]
    refine ⟨fun hpos => ?_, fun hnpos => ?_⟩
    · have hne : ne ≠ [] := List.length_pos.mp hpos
      refine wp_mono (logMessage_spec env _ w3) ?_
      rintro (e | _) w4 ⟨ha4, hr4, hlf4⟩
      · simp only [afterBind, afterTry]
        exact ((O3 (Or.inl (hlf4 e rfl))).step ha4 hr4).log _
      have hb4 : Adds w w4 (b.toList.map Effect.read) := by simpa using hb.trans ha4
      simp only [afterBind, wp_bind]
      refine wp_mono (saveRecord_spec env c w4) ?_
      rintro r w5 (⟨ha5, hr5, hlf5, e, rfl⟩ | ⟨f, hf, ha5, hr5, e, rfl⟩ | ⟨hf, ha5, hr5, hlf5⟩)
      · simp only [afterBind, afterTry]
        exact (((O3 (Or.inl hlf5)).step ha4 hr4).step ha5 hr5).log _
      · simp only [afterBind, afterTry]
        exact (CycleOutcome.writeFailed b c ne p f hl hp hp3 hnew hne hf
          (hb4.trans ha5) hr5).log _
      have O5 : LogFails env → CycleOutcome env w w5 := fun hlf =>
        CycleOutcome.saved b c ne p hl hp hlf hnew hne hf (hb4.trans ha5) hr5
      rcases r with e | _
      · simp only [afterBind, afterTry]
        exact (O5 (hlf5 e rfl)).log _
      simp only [afterBind, wp_bind]
      refine wp_mono (sendTelegramMessage_spec env _ w5) ?_
      rintro r w6 ⟨hr6, ha6⟩
      have O6 : CycleOutcome env w w6 := by
        rcases ha6 with ⟨ha6, hlf6⟩ | ha6
        · exact (O5 hlf6).step ha6 hr6
        · refine CycleOutcome.notified b c ne p hl hp hp3 hnew hne hf ?_ (hr6.trans hr5)
          simpa using (hb4.trans ha5).trans ha6
      rcases r with e | _
      · simp only [afterBind, afterTry]
        exact O6.log _
      · simp only [afterBind]
        exact O6.log_try _ _
    · have hnil : ne = [] := by
        cases ne with
        | nil => rfl
        | cons a t => exact absurd (Nat.succ_pos _) hnpos
      subst hnil
      have hwhy : LogFails env ∨ (∃ e, loaded env w.record = Except.error e) ∨
          ∃ previous, loaded env w.record = Except.ok previous ∧
            (filterNew previous c = Except.ok [] ∨
              ∃ e, filterNew previous c = Except.error e) := by
        rcases hp3 with h | ⟨h, _⟩
        · exact Or.inl h
        · exact Or.inr (Or.inr ⟨p, h, Or.inl hnew⟩)
      refine wp_mono (logMessage_spec env _ w3) ?_
      rintro (e | _) w4 ⟨ha4, hr4, hlf4⟩
      · simp only [afterBind, afterTry]
        exact ((O3 hwhy).step ha4 hr4).log _
      · simp only [afterBind]
        exact ((O3 hwhy).step ha4 hr4).log_try _ _

/-! ## A log sink that accepts every line -/

theorem LogOk.not_fails {env : Env} (hlog : LogOk env) : ¬ LogFails env := by
  rintro ⟨n, e, h⟩
  rw [hlog n] at h
  exact Option.noConfusion h

theorem wp_logMessage_ok {env : Env} (hlog : LogOk env) (msg : String)
    (Q : Except JsError Unit → World → Prop) (w : World) :
    wp (logMessage env msg) Q w ↔
      Q (Except.ok ())
        (w.emit (Effect.log (env.now w.trace.length ++ " - " ++ msg ++ "\n") true)) := by
  rw [wp_logMessage, hlog]
  simp

theorem scrapeWebpage_result {env : Env} (hlog : LogOk env) (w : World) :
    (scrapeWebpage env w).1 =
      match env.launchFault with
      | some e => Except.error e
      | none => env.page := by
  show wp (scrapeWebpage env) (fun r _ => r = match env.launchFault with
      | some e => Except.error e
      | none => env.page) w
  simp only [scrapeWebpage, wp_bind, wp_tryCatch, wp_pure, wp_throw, wp_logMessage_ok hlog,
    wp_launchBrowser, wp_evaluatePage, afterBind, afterTry]
  repeat' (first | intro _ | apply And.intro)
  all_goals simp_all

theorem loadRecord_result {env : Env} (hlog : LogOk env) (w : World) :
    (loadRecord env w).1 = loaded env w.record := by
  show wp (loadRecord env) (fun r _ => r = loaded env w.record) w
  simp only [loadRecord, wp_bind, wp_tryCatch, wp_pure, wp_throw, wp_logMessage_ok hlog,
    wp_readFile, wp_jsonParse, wp_ite, afterBind, afterTry, emit_record]
  repeat' (first | intro _ | apply And.intro)
  all_goals simp_all [loaded]

theorem saveRecord_result {env : Env} (hlog : LogOk env) (record : List InventoryItem)
    (w : World) :
    (saveRecord env record w).1 =
      match env.writeFault with
      | none => Except.ok ()
      | some f => Except.error f.error := by
  show wp (saveRecord env record) (fun r _ => r = match env.writeFault with
      | none => Except.ok ()
      | some f => Except.error f.error) w
  simp only [saveRecord, wp_bind, wp_tryCatch, wp_pure, wp_throw, wp_logMessage_ok hlog,
    wp_writeFile, afterBind, afterTry]
  repeat' (first | intro _ | apply And.intro)
  all_goals simp_all

theorem sendTelegramMessage_result {env : Env} (hlog : LogOk env) (message : String)
    (w : World) :
    (sendTelegramMessage env message w).1 =
      match env.sendFault with
      | none => Except.ok ()
      | some e => Except.error e := by
  show wp (sendTelegramMessage env message) (fun r _ => r = match env.sendFault with
      | none => Except.ok ()
      | some e => Except.error e) w
  simp only [sendTelegramMessage, wp_bind, wp_tryCatch, wp_pure, wp_throw,
    wp_logMessage_ok hlog, wp_sendMessage, afterBind, afterTry]
  repeat' (first | intro _ | apply And.intro)
  all_goals simp_all

theorem scrapeWebpage_run {env : Env} (hlog : LogOk env) (w : World) :
    wp (scrapeWebpage env)
      (fun r w1 => r = (match env.launchFault with
          | some e => Except.error e
          | none => env.page) ∧ w1.record = w.record) w :=
  ⟨scrapeWebpage_result hlog w, (scrapeWebpage_spec env w).2.1⟩

theorem loadRecord_run {env : Env} (hlog : LogOk env) (w : World) :
    wp (loadRecord env) (fun r w1 => r = loaded env w.record ∧ w1.record = w.record) w :=
  ⟨loadRecord_result hlog w, (loadRecord_spec env w).1⟩

/-- With a working log sink `main` returns normally and the last operation of
the cycle is the log line given by `closingLine`. -/
theorem main_closing {env : Env} (hlog : LogOk env) (w : World) :
    wp (main env)
      (fun r w1 => r = Except.ok () ∧ LastLogged env w1 (closingLine env w.record)) w := by
  simp only [main, wp_tryCatch, wp_bind]
  generalize hT : afterTry
    (fun error => logMessage env ("An error occurred during the inventory check: " ++ error.message))
    (fun r w1 => r = Except.ok () ∧ LastLogged env w1 (closingLine env w.record)) = T
  have E : ∀ e w1, closingLine env w.record =
      "An error occurred during the inventory check: " ++ e.message → T (Except.error e) w1 := by
    intro e w1 hM
    subst hT
    simp only [afterTry, wp_logMessage_ok hlog, LastLogged, emit_trace, List.getLast?_append,
      List.getLast?_singleton, Option.or_some, hM]
    exact ⟨trivial, _, rfl⟩
  have F : ∀ w1, closingLine env w.record = "Inventory check completed." →
      wp (logMessage env "Inventory check completed.") T w1 := by
    intro w1 hM
    subst hT
    simp only [afterTry, wp_logMessage_ok hlog, LastLogged, emit_trace, List.getLast?_append,
      List.getLast?_singleton, Option.or_some, hM]
    exact ⟨trivial, _, rfl⟩
  rw [wp_logMessage_ok hlog]
  simp only [afterBind, wp_bind]
  refine wp_mono (scrapeWebpage_run hlog _) ?_
  rintro r w2 ⟨hr2, hrec2⟩
  rw [emit_record] at hrec2
  cases hl : env.launchFault with
  | some e =>
    rw [hl] at hr2
    subst hr2
    exact E e w2 (by simp [closingLine, hl])
  | none =>
  rw [hl] at hr2
  cases hp : env.page with
  | error e =>
    rw [hp] at hr2
    subst hr2
    exact E e w2 (by simp [closingLine, hl, hp])
  | ok c =>
  rw [hp] at hr2
  subst hr2
  simp only [afterBind, wp_bind]
  refine wp_mono (loadRecord_run hlog w2) ?_
  rintro r w3 ⟨hr3, _⟩
  rw [hrec2] at hr3
  cases hld : loaded env w.record with
  | error e =>
    rw [hld] at hr3
    subst hr3
    exact E e w3 (by simp [closingLine, hl, hp, hld])
  | ok p =>
  rw [hld] at hr3
  subst hr3
  simp only [afterBind, wp_bind, wp_liftExcept]
  cases hnew : filterNew p c with
  | error e => exact E e w3 (by simp [closingLine, hl, hp, hld, hnew])
  | ok ne =>
  simp only [afterBind, wp_bind, wp_ite]
  refine ⟨fun hpos => ?_, fun hnpos => ?_⟩
  · rw [wp_logMessage_ok hlog]
    simp only [afterBind, wp_bind]
    refine wp_mono (Q := fun r _ => r = match env.writeFault with
      | none => Except.ok ()
      | some f => Except.error f.error) (saveRecord_result hlog c _) ?_
    rintro r w5 hr5
    cases hw : env.writeFault with
    | some f =>
      rw [hw] at hr5
      subst hr5
      exact E f.error w5 (by simp [closingLine, hl, hp, hld, hnew, hpos, hw])
    | none =>
    rw [hw] at hr5
    subst hr5
    simp only [afterBind, wp_bind]
    refine wp_mono (Q := fun r _ => r = match env.sendFault with
      | none => Except.ok ()
      | some e => Except.error e) (sendTelegramMessage_result hlog _ _) ?_
    rintro r w6 hr6
    cases hs : env.sendFault with
    | some e =>
      rw [hs] at hr6
      subst hr6
      exact E e w6 (by simp [closingLine, hl, hp, hld, hnew, hpos, hw, hs])
    | none =>
      rw [hs] at hr6
      subst hr6
      exact F w6 (by simp [closingLine, hl, hp, hld, hnew, hpos, hw, hs])
  · rw [wp_logMessage_ok hlog]
    simp only [afterBind]
    exact F _ (by simp [closingLine, hl, hp, hld, hnew, hnpos])

/-! ## The difference of two snapshots -/

theorem toJson_id (p : InventoryItem) : p.toJson.id = Except.ok (some (Json.str p.id)) := by
  simp [InventoryItem.toJson, Json.id, List.lookup]

theorem someMatches_snapshot (item : InventoryItem) (previous : List InventoryItem) :
    someMatches item (previous.map InventoryItem.toJson) =
      Except.ok (decide (∃ p ∈ previous, p.id = item.id)) := by
  induction previous with
  | nil => simp [someMatches]
  | cons p ps ih =>
    simp only [List.map_cons, someMatches, toJson_id, strictEq, ih]
    by_cases h : p.id = item.id <;> simp [h]

theorem filterNew_snapshot (current previous : List InventoryItem) :
    filterNew (snapshotJson previous) current = Except.ok (diffSpec current previous) := by
  induction current with
  | nil => simp [filterNew, diffSpec]
  | cons item rest ih =>
    simp only [filterNew, snapshotJson, previousSome, someMatches_snapshot] at ih ⊢
    rw [ih]
    by_cases h : ∃ p ∈ previous, p.id = item.id
    · have h2 : ¬ ∀ p ∈ previous, p.id ≠ item.id := by
        push_neg
        exact h
      simp [diffSpec, List.filter_cons, h, h2]
    · have h2 : ∀ p ∈ previous, p.id ≠ item.id := by
        push_neg at h
        exact h
      simp only [diffSpec, List.filter_cons, h, decide_False, Bool.not_false, if_true,
        decide_eq_true_eq]
      rw [if_pos h2]

theorem filterNew_empty_previous (current : List InventoryItem) :
    filterNew (Json.arr []) current = Except.ok current := by
  have h := filterNew_snapshot current []
  simpa [snapshotJson, diffSpec] using h

theorem filterNew_same (snapshot : List InventoryItem) :
    filterNew (snapshotJson snapshot) snapshot = Except.ok [] := by
  rw [filterNew_snapshot]
  congr 1
  simp only [diffSpec, List.filter_eq_nil_iff]
  intro item hmem
  simp only [decide_eq_true_eq]
  intro h
  exact h item hmem rfl

/-- C1: the new entries computed in `main` from a current and a previous
snapshot are the items of `current` whose id is the id of no item of
`previous`: the same list as the filter of the specification, a sublist of
`current` (same relative order), with the same members and, for every item
that is kept, the same number of occurrences as in `current`. -/
theorem newEntries_is_diff (current previous : List InventoryItem) :
    ∃ newEntries, filterNew (snapshotJson previous) current = Except.ok newEntries ∧
      newEntries = diffSpec current previous ∧
      newEntries.Sublist current ∧
      (∀ item, item ∈ newEntries ↔ item ∈ current ∧ ∀ p ∈ previous, p.id ≠ item.id) ∧
      (∀ item, (∀ p ∈ previous, p.id ≠ item.id) →
        newEntries.count item = current.count item) ∧
      (∀ item, (∃ p ∈ previous, p.id = item.id) → newEntries.count item = 0) := by
  refine ⟨diffSpec current previous, filterNew_snapshot current previous, rfl, ?_, ?_, ?_, ?_⟩
  · exact List.filter_sublist current
  · intro item
    simp [diffSpec, List.mem_filter]
  · intro item h
    exact List.count_filter (by simpa using h)
  · intro item h
    rw [List.count_eq_zero]
    simp only [diffSpec, List.mem_filter, decide_eq_true_eq, not_and]
    intro _ h2
    obtain ⟨p, hp, hid⟩ := h
    exact h2 p hp hid

/-! ## The notification text -/

theorem intercalate_go_append (a b sep : String) (rest : List String) :
    String.intercalate.go (a ++ b) sep rest = a ++ String.intercalate.go b sep rest := by
  induction rest generalizing b with
  | nil => simp [String.intercalate.go]
  | cons x xs ih =>
    simp only [String.intercalate.go]
    rw [String.append_assoc, String.append_assoc, ← String.append_assoc b, ih]

theorem buildMessage_cons (entry : InventoryItem) (rest : List InventoryItem) :
    buildMessage (entry :: rest) =
      "\n".intercalate
        (summaryLine (entry :: rest).length :: (entry :: rest).map entryLine) := by
  simp only [buildMessage, String.intercalate, List.map_cons, String.intercalate.go]
  rw [← intercalate_go_append]

theorem entryLine_eq (entry : InventoryItem) :
    entryLine entry = "ðŸš™ Date Added: " ++ entry.dateAdded ++ ", Year: " ++ entry.year ++
      ", Colour: " ++ entry.color ++ ", Row: undefined" := by
  have h : entry.get "row" = none := by simp [InventoryItem.get]
  have h1 : entry.get "dateAdded" = some entry.dateAdded := by simp [InventoryItem.get]
  have h2 : entry.get "year" = some entry.year := by simp [InventoryItem.get]
  have h3 : entry.get "color" = some entry.color := by simp [InventoryItem.get]
  simp only [entryLine, h, h1, h2, h3, render]
  exact String.append_assoc _ ", Row: " "undefined"

theorem digitChar_ne_newline : ∀ m < 10, Nat.digitChar m ≠ '\n' := by
  decide

theorem toDigitsCore_no_newline (fuel : Nat) :
    ∀ (n : Nat) (ds : List Char), '\n' ∉ ds → '\n' ∉ Nat.toDigitsCore 10 fuel n ds := by
  induction fuel with
  | zero => intro n ds h; simpa [Nat.toDigitsCore] using h
  | succ fuel ih =>
    intro n ds h
    have hd : '\n' ∉ Nat.digitChar (n % 10) :: ds := by
      simp only [List.mem_cons, not_or]
      exact ⟨fun hc => digitChar_ne_newline _ (Nat.mod_lt n (by decide)) hc.symm, h⟩
    simp only [Nat.toDigitsCore]
    split_ifs
    · exact hd
    · exact ih _ _ hd

theorem toString_no_newline (n : Nat) : '\n' ∉ (toString n).data := by
  show '\n' ∉ (Nat.repr n).data
  simp only [Nat.repr, Nat.toDigits, List.asString]
  exact toDigitsCore_no_newline _ _ _ (by simp)

theorem summaryLine_no_newline (n : Nat) : '\n' ∉ (summaryLine n).data := by
  have h := toString_no_newline n
  simp only [summaryLine, String.data_append, List.mem_append, not_or]
  exact ⟨⟨by decide, h⟩, by decide⟩

theorem entryLine_no_newline (entry : InventoryItem) (h1 : '\n' ∉ entry.dateAdded.data)
    (h2 : '\n' ∉ entry.year.data) (h3 : '\n' ∉ entry.color.data) :
    '\n' ∉ (entryLine entry).data := by
  rw [entryLine_eq]
  simp only [String.data_append, List.mem_append, not_or]
  exact ⟨⟨⟨⟨⟨⟨by decide, h1⟩, by decide⟩, h2⟩, by decide⟩, h3⟩, by decide⟩

theorem intercalate_go_data (sep acc : String) (rest : List String) :
    (String.intercalate.go acc sep rest).data =
      acc.data ++ (rest.map (fun x => sep.data ++ x.data)).flatten := by
  induction rest generalizing acc with
  | nil => simp [String.intercalate.go]
  | cons x xs ih =>
    simp only [String.intercalate.go, ih, String.data_append, List.map_cons, List.flatten_cons,
      List.append_assoc]

theorem list_intercalate_cons (sep a : List Char) (rest : List (List Char)) :
    List.intercalate sep (a :: rest) = a ++ (rest.map (fun x => sep ++ x)).flatten := by
  induction rest generalizing a with
  | nil => simp [List.intercalate]
  | cons x xs ih =>
    have h := ih x
    simp only [List.intercalate, List.intersperse, List.flatten_cons, List.map_cons,
      List.append_assoc] at h ⊢
    rw [h]

theorem textLines_intercalate (first : String) (rest : List String)
    (h : ∀ l ∈ first :: rest, '\n' ∉ l.data) :
    textLines ("\n".intercalate (first :: rest)) = first :: rest := by
  have hdata : ("\n".intercalate (first :: rest)).data =
      List.intercalate ['\n'] ((first :: rest).map String.data) := by
    rw [List.map_cons, list_intercalate_cons]
    simp only [String.intercalate, intercalate_go_data, List.map_map]
    rfl
  have hsplit : (List.intercalate ['\n'] ((first :: rest).map String.data)).splitOn '\n' =
      (first :: rest).map String.data :=
    List.splitOn_intercalate ((first :: rest).map String.data) '\n'
      (by
        intro l hl
        obtain ⟨s, hs, rfl⟩ := List.mem_map.mp hl
        exact h s hs)
      (by simp)
  simp only [textLines, hdata, hsplit, List.map_map]
  have : (String.mk ∘ String.data) = id := by
    funext s
    rfl
  rw [this, List.map_id]

/-- C9, as the code has it: for a non-empty list of new entries none of whose
date added, year and colour holds a line break, the lines of the notification
text are the summary line with the count of new entries, followed by exactly
one line per new entry, in order, each listing the date added, the year and
the colour of its entry.  With a previous snapshot holding `a` and a current
one holding `a` and `b` (a different id), the text states count 1 and has the
line of `b` only. -/
theorem message_lines (newEntries : List InventoryItem) (h : newEntries ≠ [])
    (hclean : ∀ entry ∈ newEntries, '\n' ∉ entry.dateAdded.data ∧
      '\n' ∉ entry.year.data ∧ '\n' ∉ entry.color.data) :
    textLines (buildMessage newEntries) =
        ("ðŸ¤© Found " ++ toString newEntries.length ++ " new Hyundai Accents:") ::
          newEntries.map (fun entry =>
            "ðŸš™ Date Added: " ++ entry.dateAdded ++ ", Year: " ++ entry.year ++
              ", Colour: " ++ entry.color ++ ", Row: undefined") ∧
      (textLines (buildMessage newEntries)).length = newEntries.length + 1 ∧
      (∀ a b : InventoryItem, a.id ≠ b.id → newEntries = [b] →
        filterNew (snapshotJson [a]) [a, b] = Except.ok newEntries ∧
        textLines (buildMessage newEntries) =
          ["ðŸ¤© Found 1 new Hyundai Accents:",
            "ðŸš™ Date Added: " ++ b.dateAdded ++ ", Year: " ++ b.year ++
              ", Colour: " ++ b.color ++ ", Row: undefined"]) := by
  have hlines : textLines (buildMessage newEntries) =
      summaryLine newEntries.length :: newEntries.map entryLine := by
    cases newEntries with
    | nil => exact absurd rfl h
    | cons entry rest =>
      rw [buildMessage_cons]
      apply textLines_intercalate
      intro l hl
      rcases List.mem_cons.mp hl with rfl | hl
      · exact summaryLine_no_newline _
      · obtain ⟨e, he, rfl⟩ := List.mem_map.mp hl
        obtain ⟨h1, h2, h3⟩ := hclean e he
        exact entryLine_no_newline e h1 h2 h3
  have hmap : newEntries.map entryLine = newEntries.map (fun entry =>
      "ðŸš™ Date Added: " ++ entry.dateAdded ++ ", Year: " ++ entry.year ++
        ", Colour: " ++ entry.color ++ ", Row: undefined") :=
    List.map_congr_left (fun e _ => entryLine_eq e)
  have hfirst : textLines (buildMessage newEntries) =
      ("ðŸ¤© Found " ++ toString newEntries.length ++ " new Hyundai Accents:") ::
        newEntries.map (fun entry =>
          "ðŸš™ Date Added: " ++ entry.dateAdded ++ ", Year: " ++ entry.year ++
            ", Colour: " ++ entry.color ++ ", Row: undefined") := by
    rw [hlines, hmap]
    rfl
  refine ⟨hfirst, ?_, ?_⟩
  · rw [hfirst]
    simp
  · intro a b hab hb
    subst hb
    refine ⟨?_, ?_⟩
    · rw [filterNew_snapshot]
      simp [diffSpec, List.filter_cons, hab]
    · have hs : ("ðŸ¤© Found " ++ toString 1 ++ " new Hyundai Accents:") =
          "ðŸ¤© Found 1 new Hyundai Accents:" := by decide
      rw [hfirst, List.length_singleton, hs, List.map_cons, List.map_nil]

theorem message_lines_witness :
    ([accentRed] ≠ [] ∧
      ∀ entry ∈ [accentRed], '\n' ∉ entry.dateAdded.data ∧
        '\n' ∉ entry.year.data ∧ '\n' ∉ entry.color.data) ∧
      textLines (buildMessage [accentRed]) =
        ["ðŸ¤© Found 1 new Hyundai Accents:",
          "ðŸš™ Date Added: 2024-05-03, Year: 2012, Colour: Red, Row: undefined"] :=
  ⟨⟨by decide, by decide⟩,
    (message_lines [accentRed] (by decide) (by decide)).1.trans (by decide)⟩

/-- C9 as stated fails when a field holds a line break: the new entry whose
colour cell reads `Red`, line break, `Metallic` gives a text of three lines
for one item, and no line lists the colour of the item. -/
theorem line_break_splits_item_line :
    [accentTwoTone] ≠ [] ∧
      textLines (buildMessage [accentTwoTone]) =
        ["ðŸ¤© Found 1 new Hyundai Accents:",
          "ðŸš™ Date Added: 2024-05-03, Year: 2012, Colour: Red",
          "Metallic, Row: undefined"] ∧
      (textLines (buildMessage [accentTwoTone])).length ≠ [accentTwoTone].length + 1 := by
  refine ⟨by decide, by decide, by decide⟩

/-- C10 fails on the code: for every scraped item the value interpolated after
`Row:` is the property `row`, which the item does not have, so the line ends
in the text `undefined`; the property that holds the row, `location`, is
defined and is not shown.  The line of the second sample vehicle shows it. -/
theorem row_renders_undefined (entry : InventoryItem) :
    entry.get "row" = none ∧
      entry.get "location" = some entry.location ∧
      entryLine entry = "ðŸš™ Date Added: " ++ entry.dateAdded ++ ", Year: " ++ entry.year ++
        ", Colour: " ++ entry.color ++ ", Row: undefined" ∧
      entryLine accentRed =
        "ðŸš™ Date Added: 2024-05-03, Year: 2012, Colour: Red, Row: undefined" := by
  refine ⟨by simp [InventoryItem.get], by simp [InventoryItem.get], entryLine_eq entry,
    by decide⟩

/-! ## What a cycle does to the store and the notifier -/

theorem cycle_outcome (env : Env) (w : World) : CycleOutcome env w (main env w).2 :=
  main_outcome env w

theorem storeOps_cycleOps {env : Env} {w : World} {L : List Effect}
    (h : Adds w (main env w).2 L) : storeOps (cycleOps env w) = L := by
  obtain ⟨ops, ht, hs⟩ := h
  simp only [cycleOps, ht, List.drop_left]
  exact hs

theorem mem_storeOps {ops : List Effect} {op : Effect} (h : op ∈ ops)
    (hs : op.isStore = true) : op ∈ storeOps ops :=
  List.mem_filter.mpr ⟨h, hs⟩

theorem not_send_of_storeOps {ops L : List Effect} (h : storeOps ops = L)
    (hL : ∀ op ∈ L, op.isSend = false) : ∀ op ∈ ops, op.isSend = false := by
  intro op hop
  cases op with
  | send text ok => exact hL _ (h ▸ mem_storeOps hop rfl)
  | _ => rfl

theorem not_write_of_storeOps {ops L : List Effect} (h : storeOps ops = L)
    (hL : ∀ op ∈ L, op.isWrite = false) : ∀ op ∈ ops, op.isWrite = false := by
  intro op hop
  cases op with
  | write content ok => exact hL _ (h ▸ mem_storeOps hop rfl)
  | _ => rfl

theorem fetch_ok_iff {env : Env} (hlog : LogOk env) (w : World) (c : List InventoryItem) :
    (scrapeWebpage env w).1 = Except.ok c ↔ env.launchFault = none ∧ env.page = Except.ok c := by
  rw [scrapeWebpage_result hlog]
  cases h : env.launchFault <;> simp

/-- C3: when the Inventory Source fails (the browser cannot be launched, or the
page cannot be loaded and evaluated), the record after the cycle is the record
before it and the cycle performs no read, no write of the record file and no
message send, whatever the other collaborators and the log sink do. -/
theorem fetch_failure_leaves_store (env : Env) (w : World)
    (h : env.launchFault ≠ none ∨ ∃ e, env.page = Except.error e) :
    (main env w).2.record = w.record ∧ storeOps (cycleOps env w) = [] := by
  have hno : ∀ c, env.launchFault = none → env.page = Except.ok c → False := by
    intro c hl hp
    rcases h with h | ⟨e, h⟩
    · exact h hl
    · rw [hp] at h
      exact Except.noConfusion h
  cases cycle_outcome env w with
  | untouched hadd hrec _ => exact ⟨hrec, storeOps_cycleOps hadd⟩
  | readOnly b hl c hp _ _ _ => exact (hno c hl hp).elim
  | writeFailed b c ne p f hl hp _ _ _ _ _ _ => exact (hno c hl hp).elim
  | saved b c ne p hl hp _ _ _ _ _ _ => exact (hno c hl hp).elim
  | notified b c ne p hl hp _ _ _ _ _ _ => exact (hno c hl hp).elim

theorem fetch_failure_leaves_store_witness :
    (envFetchFails.launchFault ≠ none ∨ ∃ e, envFetchFails.page = Except.error e) ∧
      (main envFetchFails secondRun).2.record = some "one" ∧
      storeOps (cycleOps envFetchFails secondRun) = [] :=
  ⟨Or.inr ⟨_, rfl⟩, fetch_failure_leaves_store envFetchFails secondRun (Or.inr ⟨_, rfl⟩)⟩

/-- C4: when writing the record file fails, the cycle attempts no message send;
and in every cycle, whatever the collaborators and the log sink do, a message
send is attempted only after a successful write of the whole fetched snapshot:
the store operations of such a cycle are at most one read, the successful
write and then the send, whose text is built from the new entries. -/
theorem send_only_after_save (env : Env) (w : World) :
    (env.writeFault ≠ none → ∀ op ∈ cycleOps env w, op.isSend = false) ∧
      (∀ text ok, Effect.send text ok ∈ cycleOps env w →
        env.writeFault = none ∧
        ∃ (rd : Option Bool) (current newEntries : List InventoryItem),
          env.page = Except.ok current ∧ newEntries ≠ [] ∧ text = buildMessage newEntries ∧
          storeOps (cycleOps env w) = rd.toList.map Effect.read ++
            [Effect.write (env.stringify (snapshotJson current)) true, Effect.send text ok]) := by
  have hread : ∀ (b : Option Bool) (op : Effect), op ∈ b.toList.map Effect.read →
      op.isSend = false := by
    intro b op hop
    cases b with
    | none => simp at hop
    | some b =>
      simp at hop
      rw [hop]; rfl
  constructor
  · intro hw
    cases cycle_outcome env w with
    | untouched hadd _ _ =>
      exact not_send_of_storeOps (storeOps_cycleOps hadd) (by simp)
    | readOnly b _ _ _ hadd _ _ =>
      exact not_send_of_storeOps (storeOps_cycleOps hadd) (by simp [Effect.isSend])
    | writeFailed b _ _ _ _ _ _ _ _ _ _ hadd _ =>
      refine not_send_of_storeOps (storeOps_cycleOps hadd) ?_
      intro op hop
      rcases List.mem_append.mp hop with h | h
      · exact hread b op h
      · simp at h
        rw [h]; rfl
    | saved _ _ _ _ _ _ _ _ _ hf _ _ => exact absurd hf hw
    | notified _ _ _ _ _ _ _ _ _ hf _ _ => exact absurd hf hw
  · intro text ok hmem
    have hst : Effect.send text ok ∈ storeOps (cycleOps env w) := mem_storeOps hmem rfl
    cases cycle_outcome env w with
    | untouched hadd _ _ =>
      rw [storeOps_cycleOps hadd] at hst
      simp at hst
    | readOnly b _ _ _ hadd _ _ =>
      rw [storeOps_cycleOps hadd] at hst
      simp at hst
    | writeFailed b _ _ _ _ _ _ _ _ _ _ hadd _ =>
      rw [storeOps_cycleOps hadd] at hst
      rcases List.mem_append.mp hst with h | h
      · exact absurd (hread b _ h) (by simp [Effect.isSend])
      · simp at h
    | saved b _ _ _ _ _ _ _ _ _ hadd _ =>
      rw [storeOps_cycleOps hadd] at hst
      rcases List.mem_append.mp hst with h | h
      · exact absurd (hread b _ h) (by simp [Effect.isSend])
      · simp at h
    | notified b c ne p _ hp _ _ hne hf hadd _ =>
      have hs := storeOps_cycleOps hadd
      rw [hs] at hst
      rcases List.mem_append.mp hst with h | h
      · exact absurd (hread b _ h) (by simp [Effect.isSend])
      · simp at h
        obtain ⟨h1, h2⟩ := h
        refine ⟨hf, b, c, ne, hp, hne, h1, ?_⟩
        rw [hs, h1, h2]

theorem send_only_after_save_witness :
    (envWriteFails.writeFault ≠ none ∧ ∀ op ∈ cycleOps envWriteFails firstRun, op.isSend = false) ∧
      (Effect.send (buildMessage [accentRed]) true ∈ cycleOps quietEnv secondRun ∧
        quietEnv.writeFault = none) :=
  ⟨⟨by decide, (send_only_after_save envWriteFails firstRun).1 (by decide)⟩,
    by decide,
    ((send_only_after_save quietEnv secondRun).2 (buildMessage [accentRed]) true (by decide)).1⟩

/-! ## Cycles with a working log sink -/

/-- With a working log sink, a cycle whose fetch and load succeed and that finds
no new entry reads the record file and does nothing else to the store. -/
theorem cycle_no_new {env : Env} (hlog : LogOk env) (w : World)
    {current : List InventoryItem} {previous : Json}
    (hl : env.launchFault = none) (hp : env.page = Except.ok current)
    (hload : loaded env w.record = Except.ok previous)
    (hnew : filterNew previous current = Except.ok []) :
    (main env w).2.record = w.record ∧ ∃ b, storeOps (cycleOps env w) = [Effect.read b] := by
  have hnf := hlog.not_fails
  have key : ∀ (c ne : List InventoryItem) (p : Json), env.page = Except.ok c →
      (LogFails env ∨ (loaded env w.record = Except.ok p ∧ True)) →
      filterNew p c = Except.ok ne → ne ≠ [] → False := by
    intro c ne p hpc hlp hn hne
    rw [hp] at hpc
    cases hpc
    rcases hlp with h | ⟨h, _⟩
    · exact hnf h
    · rw [hload] at h
      cases h
      rw [hnew] at hn
      cases hn
      exact hne rfl
  cases cycle_outcome env w with
  | untouched hadd hrec hwhy =>
    rcases hwhy with h | h | ⟨e, h⟩
    · exact (hnf h).elim
    · exact (h hl).elim
    · rw [hp] at h
      cases h
  | readOnly b _ _ _ hadd hrec _ => exact ⟨hrec, b, storeOps_cycleOps hadd⟩
  | writeFailed b c ne p f _ hpc hlp hn hne _ _ _ =>
    exact (key c ne p hpc (hlp.imp id (fun h => ⟨h.1, trivial⟩)) hn hne).elim
  | saved b c ne p _ _ hlf _ _ _ _ _ => exact (hnf hlf).elim
  | notified b c ne p _ hpc hlp hn hne _ _ _ =>
    exact (key c ne p hpc (hlp.imp id (fun h => ⟨h.1, trivial⟩)) hn hne).elim

/-- With a working log sink, a cycle whose fetch, load and write succeed and
that finds new entries reads the record file, replaces it by the fetched
snapshot and then attempts the send. -/
theorem cycle_new_saved {env : Env} (hlog : LogOk env) (w : World)
    {current newEntries : List InventoryItem} {previous : Json}
    (hl : env.launchFault = none) (hp : env.page = Except.ok current)
    (hload : loaded env w.record = Except.ok previous)
    (hnew : filterNew previous current = Except.ok newEntries) (hne : newEntries ≠ [])
    (hsave : env.writeFault = none) :
    (main env w).2.record = some (env.stringify (snapshotJson current)) ∧
      ∃ b, storeOps (cycleOps env w) =
        [Effect.read b, Effect.write (env.stringify (snapshotJson current)) true,
          Effect.send (buildMessage newEntries) env.sendFault.isNone] := by
  have hnf := hlog.not_fails
  cases cycle_outcome env w with
  | untouched hadd hrec hwhy =>
    rcases hwhy with h | h | ⟨e, h⟩
    · exact (hnf h).elim
    · exact (h hl).elim
    · rw [hp] at h
      cases h
  | readOnly b _ c hpc hadd hrec hwhy =>
    rw [hp] at hpc
    cases hpc
    rcases hwhy with h | ⟨e, h⟩ | ⟨p, h, h2⟩
    · exact (hnf h).elim
    · rw [hload] at h
      cases h
    · rw [hload] at h
      cases h
      rw [hnew] at h2
      rcases h2 with h2 | ⟨e, h2⟩
      · cases h2
        exact (hne rfl).elim
      · cases h2
  | writeFailed b c ne p f _ _ _ _ _ hf _ _ =>
    rw [hsave] at hf
    cases hf
  | saved b c ne p _ _ hlf _ _ _ _ _ => exact (hnf hlf).elim
  | notified b c ne p _ hpc hlp hn _ _ hadd hrec =>
    rw [hp] at hpc
    cases hpc
    rcases hlp with h | ⟨h, hb⟩
    · exact (hnf h).elim
    rw [hload] at h
    cases h
    rw [hnew] at hn
    cases hn
    refine ⟨hrec, ?_⟩
    cases b with
    | none => simp at hb
    | some b => exact ⟨b, by simpa using storeOps_cycleOps hadd⟩

/-- With a working log sink, a cycle whose load fails leaves the record as it
is and does at most the read. -/
theorem cycle_load_failed {env : Env} (hlog : LogOk env) (w : World) {e : JsError}
    (hload : loaded env w.record = Except.error e) :
    (main env w).2.record = w.record ∧
      (storeOps (cycleOps env w) = [] ∨ ∃ b, storeOps (cycleOps env w) = [Effect.read b]) := by
  have hnf := hlog.not_fails
  have key : ∀ (p : Json) (b : Option Bool),
      (LogFails env ∨ (loaded env w.record = Except.ok p ∧ b.isSome)) → False := by
    intro p b h
    rcases h with h | ⟨h, _⟩
    · exact hnf h
    · rw [hload] at h
      cases h
  cases cycle_outcome env w with
  | untouched hadd hrec _ => exact ⟨hrec, Or.inl (storeOps_cycleOps hadd)⟩
  | readOnly b _ _ _ hadd hrec _ => exact ⟨hrec, Or.inr ⟨b, storeOps_cycleOps hadd⟩⟩
  | writeFailed b c ne p f _ _ hlp _ _ _ _ _ => exact (key p b hlp).elim
  | saved b c ne p _ _ hlf _ _ _ _ _ => exact (hnf hlf).elim
  | notified b c ne p _ _ hlp _ _ _ _ _ => exact (key p b hlp).elim

/-- C2: in a cycle where the fetch returns `current`, the load returns
`previous`, the new entries are not empty and the write of the record file
succeeds (the log sink working), the store operations of the cycle are the
read, the write of the whole `current` snapshot and only then the send, and
the record after the cycle is the serialised `current`, whatever `previous`
was; this holds for either outcome of the send (`env.sendFault`), which is
recorded in the last operation. -/
theorem save_precedes_notification (env : Env) (w : World)
    (current newEntries : List InventoryItem) (previous : Json)
    (hlog : LogOk env)
    (hfetch : (scrapeWebpage env w).1 = Except.ok current)
    (hload : (loadRecord env w).1 = Except.ok previous)
    (hnew : filterNew previous current = Except.ok newEntries) (hne : newEntries ≠ [])
    (hsave : env.writeFault = none) :
    (main env w).2.record = some (env.stringify (snapshotJson current)) ∧
      ∃ b, storeOps (cycleOps env w) =
        [Effect.read b, Effect.write (env.stringify (snapshotJson current)) true,
          Effect.send (buildMessage newEntries) env.sendFault.isNone] := by
  obtain ⟨hl, hp⟩ := (fetch_ok_iff hlog w current).mp hfetch
  rw [loadRecord_result hlog] at hload
  exact cycle_new_saved hlog w hl hp hload hnew hne hsave

theorem save_precedes_notification_witness :
    (LogOk envSendFails ∧
      (scrapeWebpage envSendFails secondRun).1 = Except.ok [accentBlue, accentRed] ∧
      (loadRecord envSendFails secondRun).1 = Except.ok (snapshotJson [accentBlue]) ∧
      filterNew (snapshotJson [accentBlue]) [accentBlue, accentRed] = Except.ok [accentRed] ∧
      [accentRed] ≠ [] ∧ envSendFails.writeFault = none) ∧
    (main envSendFails secondRun).2.record = some "two" ∧
    ∃ b, storeOps (cycleOps envSendFails secondRun) =
      [Effect.read b, Effect.write "two" true, Effect.send (buildMessage [accentRed]) false] :=
  ⟨⟨fun _ => rfl, rfl, rfl, rfl, by decide, rfl⟩,
    save_precedes_notification envSendFails secondRun [accentBlue, accentRed] [accentRed]
      (snapshotJson [accentBlue]) (fun _ => rfl) rfl rfl rfl (by decide) rfl⟩

/-- C5: in a cycle where the fetch returns `current`, the load returns
`previous` and no entry is new (the log sink working), the record after the
cycle is the record before it and the only store operation is the read: no
write and no send.  Nothing is asked of `current` and `previous` beyond the
empty difference. -/
theorem no_new_entries_no_effect (env : Env) (w : World)
    (current : List InventoryItem) (previous : Json)
    (hlog : LogOk env)
    (hfetch : (scrapeWebpage env w).1 = Except.ok current)
    (hload : (loadRecord env w).1 = Except.ok previous)
    (hnew : filterNew previous current = Except.ok []) :
    (main env w).2.record = w.record ∧
      (∃ b, storeOps (cycleOps env w) = [Effect.read b]) ∧
      (∀ op ∈ cycleOps env w, op.isWrite = false ∧ op.isSend = false) := by
  obtain ⟨hl, hp⟩ := (fetch_ok_iff hlog w current).mp hfetch
  rw [loadRecord_result hlog] at hload
  obtain ⟨hrec, b, hb⟩ := cycle_no_new hlog w hl hp hload hnew
  refine ⟨hrec, ⟨b, hb⟩, fun op hop => ⟨?_, ?_⟩⟩
  · exact not_write_of_storeOps hb (by simp [Effect.isWrite]) op hop
  · exact not_send_of_storeOps hb (by simp [Effect.isSend]) op hop

theorem no_new_entries_no_effect_witness :
    (LogOk envOneListed ∧
      (scrapeWebpage envOneListed thirdRun).1 = Except.ok [accentBlue] ∧
      (loadRecord envOneListed thirdRun).1 = Except.ok (snapshotJson [accentBlue, accentRed]) ∧
      filterNew (snapshotJson [accentBlue, accentRed]) [accentBlue] = Except.ok []) ∧
    (main envOneListed thirdRun).2.record = some "two" ∧
    storeOps (cycleOps envOneListed thirdRun) = [Effect.read true] :=
  ⟨⟨fun _ => rfl, rfl, rfl, rfl⟩,
    (no_new_entries_no_effect envOneListed thirdRun [accentBlue]
      (snapshotJson [accentBlue, accentRed]) (fun _ => rfl) rfl rfl rfl).1, by decide⟩

/-- C6: with a working log sink, when the read of the record file fails with
error `e`, `loadRecord` returns the empty array if and only if the code of `e`
is `ENOENT`, which is the error of an absent file, and throws `e` otherwise;
when the content cannot be parsed it throws the parse error; and a cycle in
which `loadRecord` throws leaves the record as it is and performs no write and
no send. -/
theorem load_falls_back_only_on_absence (env : Env) (w : World) (hlog : LogOk env) :
    (env.readFault = none → w.record = none →
      ∃ e, (readFile env w).1 = Except.error e ∧ e.code = some "ENOENT") ∧
    (∀ e, (readFile env w).1 = Except.error e →
      ((loadRecord env w).1 = Except.ok (Json.arr []) ↔ e.code = some "ENOENT") ∧
      (e.code ≠ some "ENOENT" → (loadRecord env w).1 = Except.error e)) ∧
    (∀ data msg, (readFile env w).1 = Except.ok data → env.parse data = Except.error msg →
      (loadRecord env w).1 = Except.error ⟨none, msg⟩) ∧
    (∀ e, (loadRecord env w).1 = Except.error e →
      (main env w).2.record = w.record ∧
      ∀ op ∈ cycleOps env w, op.isWrite = false ∧ op.isSend = false) := by
  refine ⟨?_, ?_, ?_, ?_⟩
  · intro hr habs
    simp [readFile, hr, habs]
  · intro e he
    rw [loadRecord_result hlog]
    cases hr : env.readFault with
    | some e1 =>
      simp only [readFile, hr] at he
      cases he
      by_cases hc : e.code = some "ENOENT" <;> simp [loaded, hr, hc]
    | none =>
      cases hw : w.record with
      | none =>
        simp only [readFile, hr, hw] at he
        cases he
        simp [loaded, hr]
      | some data =>
        simp only [readFile, hr, hw] at he
        cases he
  · intro data msg hd hparse
    rw [loadRecord_result hlog]
    cases hr : env.readFault with
    | some e1 =>
      simp only [readFile, hr] at hd
      cases hd
    | none =>
      cases hw : w.record with
      | none =>
        simp only [readFile, hr, hw] at hd
        cases hd
      | some d =>
        simp only [readFile, hr, hw] at hd
        cases hd
        simp [loaded, hr, hparse]
  · intro e he
    rw [loadRecord_result hlog] at he
    obtain ⟨hrec, hops⟩ := cycle_load_failed hlog w he
    refine ⟨hrec, fun op hop => ?_⟩
    rcases hops with h | ⟨b, h⟩
    · exact ⟨not_write_of_storeOps h (by simp) op hop, not_send_of_storeOps h (by simp) op hop⟩
    · exact ⟨not_write_of_storeOps h (by simp [Effect.isWrite]) op hop,
        not_send_of_storeOps h (by simp [Effect.isSend]) op hop⟩

theorem load_falls_back_only_on_absence_witness :
    LogOk quietEnv ∧
      (loadRecord quietEnv firstRun).1 = Except.ok (Json.arr []) ∧
      (loadRecord envReadFails secondRun).1 =
        Except.error ⟨some "EACCES", "EACCES: permission denied, open"⟩ ∧
      (loadRecord quietEnv corruptRun).1 = Except.error ⟨none, "Unexpected token in JSON"⟩ ∧
      (main quietEnv corruptRun).2.record = some "<html>" :=
  ⟨fun _ => rfl,
    ((load_falls_back_only_on_absence quietEnv firstRun (fun _ => rfl)).2.1 _ rfl).1.mpr rfl,
    rfl, rfl,
    ((load_falls_back_only_on_absence quietEnv corruptRun (fun _ => rfl)).2.2.2 _ rfl).1⟩

theorem countP_isWrite_storeOps (ops : List Effect) :
    (storeOps ops).countP Effect.isWrite = ops.countP Effect.isWrite := by
  induction ops with
  | nil => rfl
  | cons op rest ih =>
    cases op <;>
      simp [storeOps, List.filter_cons, Effect.isStore, Effect.isWrite, List.countP_cons] at ih ⊢ <;>
      exact ih

/-- C7, as the code has it: with an unchanged Inventory Source that returns `A`
in two consecutive cycles, no failing collaborator, no record file at the start
and a record that reads back as it was written, the two cycles write the
record file once in total when `A` is not empty and never when `A` is empty;
in both cases the second cycle performs no write and no send. -/
theorem unchanged_source_two_cycles (env : Env) (w : World) (A : List InventoryItem)
    (hlog : LogOk env) (hlaunch : env.launchFault = none) (hpage : env.page = Except.ok A)
    (hread : env.readFault = none) (hwrite : env.writeFault = none)
    (habsent : w.record = none)
    (hround : env.parse (env.stringify (snapshotJson A)) = Except.ok (snapshotJson A)) :
    (cycleOps env w ++ cycleOps env (main env w).2).countP Effect.isWrite =
        (if A = [] then 0 else 1) ∧
      (∀ op ∈ cycleOps env (main env w).2, op.isWrite = false ∧ op.isSend = false) := by
  have hload1 : loaded env w.record = Except.ok (Json.arr []) := by
    simp [loaded, hread, habsent]
  have hnew1 : filterNew (Json.arr []) A = Except.ok A := filterNew_empty_previous A
  by_cases hA : A = []
  · -- nothing listed: neither cycle finds a new entry
    subst hA
    obtain ⟨hrec1, b1, hops1⟩ := cycle_no_new hlog w hlaunch hpage hload1 hnew1
    have hload2 : loaded env (main env w).2.record = Except.ok (Json.arr []) := by
      rw [hrec1]
      exact hload1
    obtain ⟨_, b2, hops2⟩ := cycle_no_new hlog (main env w).2 hlaunch hpage hload2 hnew1
    refine ⟨?_, fun op hop => ⟨?_, ?_⟩⟩
    · rw [List.countP_append, ← countP_isWrite_storeOps (cycleOps env w),
        ← countP_isWrite_storeOps (cycleOps env (main env w).2), hops1, hops2]
      simp [Effect.isWrite]
    · exact not_write_of_storeOps hops2 (by simp [Effect.isWrite]) op hop
    · exact not_send_of_storeOps hops2 (by simp [Effect.isSend]) op hop
  · -- the first cycle saves `A`, the second finds it unchanged
    obtain ⟨hrec1, b1, hops1⟩ := cycle_new_saved hlog w hlaunch hpage hload1 hnew1 hA hwrite
    have hload2 : loaded env (main env w).2.record = Except.ok (snapshotJson A) := by
      rw [hrec1]
      simp [loaded, hread, hround]
    obtain ⟨_, b2, hops2⟩ :=
      cycle_no_new hlog (main env w).2 hlaunch hpage hload2 (filterNew_same A)
    refine ⟨?_, fun op hop => ⟨?_, ?_⟩⟩
    · rw [List.countP_append, ← countP_isWrite_storeOps (cycleOps env w),
        ← countP_isWrite_storeOps (cycleOps env (main env w).2), hops1, hops2]
      simp [Effect.isWrite, hA]
    · exact not_write_of_storeOps hops2 (by simp [Effect.isWrite]) op hop
    · exact not_send_of_storeOps hops2 (by simp [Effect.isSend]) op hop

theorem unchanged_source_two_cycles_witness :
    (LogOk quietEnv ∧ quietEnv.launchFault = none ∧
      quietEnv.page = Except.ok [accentBlue, accentRed] ∧ quietEnv.readFault = none ∧
      quietEnv.writeFault = none ∧ firstRun.record = none ∧
      quietEnv.parse (quietEnv.stringify (snapshotJson [accentBlue, accentRed])) =
        Except.ok (snapshotJson [accentBlue, accentRed])) ∧
    (cycleOps quietEnv firstRun ++ cycleOps quietEnv (main quietEnv firstRun).2).countP
      Effect.isWrite = 1 :=
  ⟨⟨fun _ => rfl, rfl, rfl, rfl, rfl, rfl, rfl⟩,
    (unchanged_source_two_cycles quietEnv firstRun [accentBlue, accentRed] (fun _ => rfl) rfl rfl
      rfl rfl rfl rfl).1⟩

/-- C7 as stated fails for the empty snapshot: with a source that lists nothing
in both cycles, no failing collaborator, no record file at the start and a
record that reads back as written, the two cycles do not write the record file
at all, so the total is not one. -/
theorem empty_source_never_writes :
    LogOk envNoneListed ∧ envNoneListed.launchFault = none ∧
      envNoneListed.page = Except.ok [] ∧ envNoneListed.readFault = none ∧
      envNoneListed.writeFault = none ∧ envNoneListed.sendFault = none ∧
      firstRun.record = none ∧
      envNoneListed.parse (envNoneListed.stringify (snapshotJson [])) =
        Except.ok (snapshotJson []) ∧
      (cycleOps envNoneListed firstRun ++
        cycleOps envNoneListed (main envNoneListed firstRun).2).countP Effect.isWrite = 0 ∧
      (cycleOps envNoneListed firstRun ++
        cycleOps envNoneListed (main envNoneListed firstRun).2).countP Effect.isWrite ≠ 1 :=
  ⟨fun _ => rfl, rfl, rfl, rfl, rfl, rfl, rfl, rfl, by decide, by decide⟩

/-- C8: with a working log sink, for every outcome of the fetch, the load, the
write and the send, and whatever value the record parses to, `main` returns
normally: no error leaves the cycle.  Every failure is reported: when the
fetch, the load, the computation of the new entries, the save or the send
throws `e`, the last operation of the cycle is the successful log line
`An error occurred during the inventory check: ` followed by the message of
`e`; when none of them throws, it is the line `Inventory check completed.` -/
theorem cycle_never_throws (env : Env) (w : World) (hlog : LogOk env) :
    (main env w).1 = Except.ok () ∧
    (∀ e, (scrapeWebpage env w).1 = Except.error e →
      LastLogged env (main env w).2
        ("An error occurred during the inventory check: " ++ e.message)) ∧
    (∀ current e, (scrapeWebpage env w).1 = Except.ok current →
      (loadRecord env w).1 = Except.error e →
      LastLogged env (main env w).2
        ("An error occurred during the inventory check: " ++ e.message)) ∧
    (∀ current previous e, (scrapeWebpage env w).1 = Except.ok current →
      (loadRecord env w).1 = Except.ok previous →
      filterNew previous current = Except.error e →
      LastLogged env (main env w).2
        ("An error occurred during the inventory check: " ++ e.message)) ∧
    (∀ current previous newEntries f, (scrapeWebpage env w).1 = Except.ok current →
      (loadRecord env w).1 = Except.ok previous →
      filterNew previous current = Except.ok newEntries → newEntries ≠ [] →
      env.writeFault = some f →
      LastLogged env (main env w).2
        ("An error occurred during the inventory check: " ++ f.error.message)) ∧
    (∀ current previous newEntries e, (scrapeWebpage env w).1 = Except.ok current →
      (loadRecord env w).1 = Except.ok previous →
      filterNew previous current = Except.ok newEntries → newEntries ≠ [] →
      env.writeFault = none → env.sendFault = some e →
      LastLogged env (main env w).2
        ("An error occurred during the inventory check: " ++ e.message)) ∧
    (∀ current previous newEntries, (scrapeWebpage env w).1 = Except.ok current →
      (loadRecord env w).1 = Except.ok previous →
      filterNew previous current = Except.ok newEntries →
      (newEntries = [] ∨ (env.writeFault = none ∧ env.sendFault = none)) →
      LastLogged env (main env w).2 "Inventory check completed.") := by
  obtain ⟨hok, hlast⟩ := main_closing hlog w
  have hfetch : ∀ current, (scrapeWebpage env w).1 = Except.ok current →
      env.launchFault = none ∧ env.page = Except.ok current :=
    fun current h => (fetch_ok_iff hlog w current).mp h
  have hpos : ∀ newEntries : List InventoryItem, newEntries ≠ [] → newEntries.length > 0 :=
    fun _ h => List.length_pos.mpr h
  refine ⟨hok, ?_, ?_, ?_, ?_, ?_, ?_⟩
  · intro e he
    rw [scrapeWebpage_result hlog] at he
    cases hl : env.launchFault with
    | some e1 =>
      rw [hl] at he
      cases he
      simpa [closingLine, hl] using hlast
    | none =>
      simp only [hl] at he
      simpa [closingLine, hl, he] using hlast
  · intro current e hf hld
    obtain ⟨hl, hp⟩ := hfetch current hf
    rw [loadRecord_result hlog] at hld
    simpa [closingLine, hl, hp, hld] using hlast
  · intro current previous e hf hld hnew
    obtain ⟨hl, hp⟩ := hfetch current hf
    rw [loadRecord_result hlog] at hld
    simpa [closingLine, hl, hp, hld, hnew] using hlast
  · intro current previous newEntries f hf hld hnew hne hw
    obtain ⟨hl, hp⟩ := hfetch current hf
    rw [loadRecord_result hlog] at hld
    simpa [closingLine, hl, hp, hld, hnew, hpos newEntries hne, hw] using hlast
  · intro current previous newEntries e hf hld hnew hne hw hs
    obtain ⟨hl, hp⟩ := hfetch current hf
    rw [loadRecord_result hlog] at hld
    simpa [closingLine, hl, hp, hld, hnew, hpos newEntries hne, hw, hs] using hlast
  · intro current previous newEntries hf hld hnew hcase
    obtain ⟨hl, hp⟩ := hfetch current hf
    rw [loadRecord_result hlog] at hld
    rcases hcase with hnil | ⟨hw, hs⟩
    · subst hnil
      simpa [closingLine, hl, hp, hld, hnew] using hlast
    · by_cases hlen : newEntries.length > 0
      · simpa [closingLine, hl, hp, hld, hnew, hlen, hw, hs] using hlast
      · simpa [closingLine, hl, hp, hld, hnew, hlen] using hlast

theorem cycle_never_throws_witness :
    LogOk envWriteFails ∧ (main envWriteFails firstRun).1 = Except.ok () ∧
      LastLogged envWriteFails (main envWriteFails firstRun).2
        ("An error occurred during the inventory check: " ++
          "ENOSPC: no space left on device, write") :=
  ⟨fun _ => rfl, (cycle_never_throws envWriteFails firstRun (fun _ => rfl)).1,
    (cycle_never_throws envWriteFails firstRun (fun _ => rfl)).2.2.2.2.1
      [accentBlue, accentRed] (Json.arr []) [accentBlue, accentRed]
      ⟨⟨some "ENOSPC", "ENOSPC: no space left on device, write"⟩, some ""⟩
      rfl rfl rfl (by decide) rfl⟩

/-- Outside the claims: when the log file itself cannot be appended to, the log
line of the `catch` throws and the promise returned by `main` is rejected. -/
theorem main_rejects_when_log_fails :
    (main envLogFails firstRun).1 =
      Except.error ⟨some "EACCES", "EACCES: permission denied, open"⟩ := rfl

/-- Outside the claims: a log failure that carries the code `ENOENT` before the
read makes `loadRecord` return the empty array although the record exists. -/
theorem load_mistakes_log_failure_for_absence :
    (loadRecord { quietEnv with
        logFault := fun n => if n = 0 then some ⟨some "ENOENT", "ENOENT: no such file"⟩ else none }
      thirdRun).1 = Except.ok (Json.arr []) := rfl

/-- Outside the claims: `loadRecord` hands back whatever the record parses to,
also a value that is not an array; `main` then throws on `previousInventory.some`
and reports it. -/
theorem load_returns_non_array_unchecked :
    (loadRecord quietEnv objectRun).1 = Except.ok (Json.obj [("id", Json.str "1")]) ∧
      filterNew (Json.obj [("id", Json.str "1")]) [accentBlue, accentRed] =
        Except.error (typeError "previousInventory.some is not a function") ∧
      (main quietEnv objectRun).2.record = some "object" := by
  refine ⟨rfl, rfl, rfl⟩

end PnpScraper
